import Mathlib

/-!
Shallow embedding of the ICT-Reg backend (`src/server.js`), an Express+MongoDB
student-registration API.  Collections are modelled as Lean lists, Mongo
`findOne` as `List.find?` (first match), and each route handler the claims
touch as a pure function from the request body and the database state to a
response, the new state, and (where a claim is about read/write ordering) a
trace of database events.  JS falsiness of the string-typed request fields is
modelled as equality with `""`.
-/

namespace ICTReg

/-! ## JS string helpers -/

/-- Models the JS idiom `x || d` for an optional string `x`: the default `d`
is used when the value is absent (`none`) or falsy (the empty string). -/
def jsOrS (x : Option String) (d : String) : String :=
  match x with
  | none => d
  | some s => if s == "" then d else s

/-- JS `s.toLowerCase()`, character by character. -/
def strToLower (s : String) : String := ⟨s.data.map Char.toLower⟩

/-- JS `s.toUpperCase()`, character by character. -/
def strToUpper (s : String) : String := ⟨s.data.map Char.toUpper⟩

/-- JS `s.trim()`: strip leading and trailing whitespace. -/
def strTrim (s : String) : String :=
  ⟨((s.data.dropWhile Char.isWhitespace).reverse.dropWhile Char.isWhitespace).reverse⟩

/-- The record-side and query-side normalization `s.trim().toLowerCase()`
used by the department/level filters of `GET /api/students`. -/
def trimLower (s : String) : String := strToLower (strTrim s)

/-- Case-insensitive equality `a.toLowerCase() === b.toLowerCase()` (JS). -/
def ciEqStr (a b : String) : Bool := strToLower a == strToLower b

/-! ## Regular-expression fragment

`GET /api/students` builds `new RegExp(q.trim(), "i")` from the raw query and
`POST /api/upload-results` builds `new RegExp("^" + code + "$", "i")`; the
query text is interpreted as a regex, not as a literal string.  We model the
fragment of JS regexes in which the only metacharacter is `.` (any single
character); every other character is a literal matched case-insensitively
(the `i` flag).  On patterns containing no regex metacharacter at all
(`regexSpecial` below) this model agrees with JS, and it also agrees on
patterns whose only metacharacter is `.`, which suffices for every statement
below. -/

/-- One token of the modelled regex fragment. -/
inductive RTok
  | dot
  | lit (c : Char)
deriving DecidableEq, Repr

/-- Token-against-character match, case-insensitive (`i` flag). -/
def tokMatch : RTok → Char → Bool
  | .dot, _ => true
  | .lit c, d => c.toLower == d.toLower

/-- Does the pattern match a prefix of the character list? -/
def matchHere : List RTok → List Char → Bool
  | [], _ => true
  | _ :: _, [] => false
  | t :: ts, c :: cs => tokMatch t c && matchHere ts cs

/-- JS `regex.test(s)` for an unanchored pattern: the pattern matches
starting at some position of `s`. -/
def regexTest (pat : List RTok) : List Char → Bool
  | [] => matchHere pat []
  | c :: cs => matchHere pat (c :: cs) || regexTest pat cs

/-- Anchored match `^pat$`: the pattern consumes the whole string. -/
def matchExact : List RTok → List Char → Bool
  | [], [] => true
  | [], _ :: _ => false
  | _ :: _, [] => false
  | t :: ts, c :: cs => tokMatch t c && matchExact ts cs

/-- Compile a character list into the modelled fragment: `.` is the wildcard,
everything else a literal. -/
def parsePatL (q : List Char) : List RTok :=
  q.map fun c => if c = '.' then RTok.dot else RTok.lit c

/-- Compile a JS pattern string. -/
def parsePat (s : String) : List RTok := parsePatL s.data

/-- The JS regex metacharacters.  A pattern free of all of them denotes a
literal (case-insensitive) substring search. -/
def regexSpecial (c : Char) : Bool :=
  c == '.' || c == '*' || c == '+' || c == '?' || c == '(' || c == ')' ||
  c == '[' || c == ']' || c == '\x7b' || c == '\x7d' || c == '|' ||
  c == '^' || c == '$' || c == '\\'

/-! ### Case-insensitive substring search, as the spec words it -/

/-- Modelled from the spec: case-insensitive "starts with". -/
def ciStarts : List Char → List Char → Bool
  | [], _ => true
  | _ :: _, [] => false
  | c :: cs, d :: ds => (c.toLower == d.toLower) && ciStarts cs ds

/-- Modelled from the spec: `q` occurs as a case-insensitive substring
of `s`. -/
def ciSubstring (q : List Char) : List Char → Bool
  | [] => ciStarts q []
  | d :: ds => ciStarts q (d :: ds) || ciSubstring q ds

/-! ## Pin ledger (`CoursePin` collection)

Per the schema: `courseCode`, `courseTitle`, a `pin` code carrying a
storage-level uniqueness constraint (`unique: true`), and a boolean
`used` defaulting to `false`. -/

structure CoursePinRec where
  courseCode : String
  courseTitle : String
  pin : String
  used : Bool
deriving DecidableEq, Repr

/-- `CoursePin.findOne({ pin, courseCode, used: false })` from
`POST /api/course-register`. -/
def findValidPin (pins : List CoursePinRec) (pinCode courseCode : String) :
    Option CoursePinRec :=
  pins.find? fun p => p.pin == pinCode && p.courseCode == courseCode && p.used == false

/-- Persisting `validPin.used = true; validPin.save()`: the first record
matching the `findOne` filter above is flipped to used. -/
def markPinUsed : List CoursePinRec → String → String → List CoursePinRec
  | [], _, _ => []
  | p :: ps, pc, cc =>
    if p.pin == pc && p.courseCode == cc && p.used == false then
      { p with used := true } :: ps
    else
      p :: markPinUsed ps pc cc

/-! ## Course registration (`POST /api/course-register`) -/

structure CourseRegRec where
  matricNumber : String
  studentName : String
  department : String
  level : String
  courseCode : String
  courseTitle : String
  pinUsed : String
deriving DecidableEq, Repr

/-- The destructured request body; `studentName` and `courseTitle` are not
required fields. -/
structure RegBody where
  matricNumber : String
  studentName : String
  department : String
  level : String
  courseCode : String
  courseTitle : String
  pin : String
deriving DecidableEq, Repr

/-- The two collections the handler touches. -/
structure RegDB where
  registrations : List CourseRegRec
  pins : List CoursePinRec
deriving DecidableEq, Repr

/-- `!matricNumber || !department || !level || !courseCode || !pin`. -/
def missingRegFields (b : RegBody) : Bool :=
  b.matricNumber == "" || b.department == "" || b.level == "" ||
  b.courseCode == "" || b.pin == ""

/-- `CourseRegistration.findOne({ matricNumber, courseCode })`. -/
def findRegistration (db : RegDB) (b : RegBody) : Option CourseRegRec :=
  db.registrations.find? fun r =>
    r.matricNumber == b.matricNumber && r.courseCode == b.courseCode

/-- The document built by `new CourseRegistration({...})`. -/
def mkRegistration (b : RegBody) : CourseRegRec :=
  { matricNumber := b.matricNumber, studentName := b.studentName,
    department := b.department, level := b.level, courseCode := b.courseCode,
    courseTitle := b.courseTitle, pinUsed := b.pin }

/-- The handler's distinguishable responses: 400 missing fields,
`success:false` "Course already registered", `success:false` "Invalid or
already used pin", `success:true`, and the catch-all 500 reached when a
`save()` throws. -/
inductive RegResp
  | missingFields
  | alreadyRegistered
  | invalidPin
  | registered
  | serverError
deriving DecidableEq, Repr

/-- Database events, recorded in the order the handler issues them. -/
inductive DbEv
  | readReg
  | readPin
  | writeReg
  | writePin
deriving DecidableEq, Repr

/-- `POST /api/course-register`.  The two `save()` calls can each fail
(`regSaveOk`, `pinSaveOk` model whether the corresponding write succeeds);
a failed write throws into the route's `catch`, producing the 500 response.
Returns the response, the final state, and the trace of attempted database
operations. -/
def courseRegister (db : RegDB) (b : RegBody) (regSaveOk pinSaveOk : Bool) :
    RegResp × RegDB × List DbEv :=
  if missingRegFields b then
    (.missingFields, db, [])
  else
    match findRegistration db b with
    | some _ => (.alreadyRegistered, db, [.readReg])
    | none =>
      match findValidPin db.pins b.pin b.courseCode with
      | none => (.invalidPin, db, [.readReg, .readPin])
      | some _ =>
        if regSaveOk then
          let db1 : RegDB :=
            { db with registrations := db.registrations ++ [mkRegistration b] }
          if pinSaveOk then
            (.registered,
             { db1 with pins := markPinUsed db1.pins b.pin b.courseCode },
             [.readReg, .readPin, .writeReg, .writePin])
          else
            (.serverError, db1, [.readReg, .readPin, .writeReg, .writePin])
        else
          (.serverError, db, [.readReg, .readPin, .writeReg])

/-! ## Redemption (`redeem(pinCode, expectedCourseCode)`)

The lookup-and-flip unit performed by `POST /api/course-register` on the
`CoursePin` collection (lines 1359-1381): find an unused pin with the given
code bound to the expected course, and flip it to used. -/

inductive RedeemResult
  | ok
  | notApplicable
deriving DecidableEq, Repr

/-- The redemption unit of `POST /api/course-register`: a mismatch (no pin,
wrong course, or already used) yields `notApplicable` — a `success:false`
JSON body, not a thrown error. -/
def redeem (pins : List CoursePinRec) (pinCode expectedCourseCode : String) :
    RedeemResult × List CoursePinRec :=
  match findValidPin pins pinCode expectedCourseCode with
  | none => (.notApplicable, pins)
  | some _ => (.ok, markPinUsed pins pinCode expectedCourseCode)

/-- Responses of `POST /api/course-pins/use`. -/
inductive UsePinResp
  | pinRequired
  | pinNotFound
  | alreadyUsed
  | markedUsed
deriving DecidableEq, Repr

/-- Persisting `record.used = true; record.save()` where `record` is the
first document with the given pin code. -/
def markFirstWithPin : List CoursePinRec → String → List CoursePinRec
  | [], _ => []
  | p :: ps, pc =>
    if p.pin == pc then { p with used := true } :: ps
    else p :: markFirstWithPin ps pc

/-- `POST /api/course-pins/use`: look the pin up by code alone, report
`alreadyUsed` when it is spent, otherwise flip it. -/
def usePin (pins : List CoursePinRec) (pinCode : String) :
    UsePinResp × List CoursePinRec :=
  if pinCode == "" then (.pinRequired, pins)
  else
    match pins.find? (fun p => p.pin == pinCode) with
    | none => (.pinNotFound, pins)
    | some r =>
      if r.used then (.alreadyUsed, pins)
      else (.markedUsed, markFirstWithPin pins pinCode)

/-! ## Pin generation (`POST /api/course-pins/generate`) -/

/-- Responses of the generation route: 400 when course code or title is
missing, the generated codes on success, and the catch-all 500 reached when
`insertMany` throws (in particular on a duplicate-key violation of the
`unique: true` constraint on `pin`). -/
inductive GenResp
  | missingFields
  | generated (pins : List String)
  | serverError
deriving DecidableEq, Repr

/-- `courseCode.split(" ")[0].toUpperCase()`: the first space-separated token
of the course code, uppercased. -/
def pinPfx (courseCode : String) : String :=
  strToUpper ⟨courseCode.data.takeWhile fun c => c != ' '⟩

/-- `parseInt(amount) || 1`: an absent or unparsable amount, and the falsy
value `0`, default to `1`. -/
def parseAmount : Option Int → Int
  | none => 1
  | some n => if n == 0 then 1 else n

/-- The batch built by the generation loop.  `rand i` models the value
`Math.floor(1000 + Math.random() * 9000)` drawn on iteration `i`; the
`1000 + rand i % 9000` normalization keeps the modelled draw in the same
range `1000..9999` the JS expression produces. -/
def batchPins (courseCode courseTitle : String) (count : Nat) (rand : Nat → Nat) :
    List CoursePinRec :=
  (List.range count).map fun i =>
    { courseCode := courseCode, courseTitle := courseTitle,
      pin := "REG/" ++ pinPfx courseCode ++ "/" ++ toString (1000 + rand i % 9000),
      used := false }

/-- Mongo's ordered `insertMany` against the unique index on `pin`: documents
are inserted one at a time; the first duplicate key aborts the call, leaving
the documents inserted before it in place.  Returns whether the whole batch
went in, together with the resulting collection. -/
def insertPinsOrdered (store : List CoursePinRec) :
    List CoursePinRec → Bool × List CoursePinRec
  | [] => (true, store)
  | p :: ps =>
    if store.any (fun q => q.pin == p.pin) then (false, store)
    else insertPinsOrdered (store ++ [p]) ps

/-- `POST /api/course-pins/generate`. -/
def generatePins (store : List CoursePinRec) (courseCode courseTitle : String)
    (amount : Option Int) (rand : Nat → Nat) : GenResp × List CoursePinRec :=
  if courseCode == "" || courseTitle == "" then
    (.missingFields, store)
  else
    let pins := batchPins courseCode courseTitle (parseAmount amount).toNat rand
    let r := insertPinsOrdered store pins
    if r.1 then (.generated (pins.map fun p => p.pin), r.2)
    else (.serverError, r.2)

/-! ## Record merge (`GET /api/students/:id`)

The handler spreads the profile document and then the student document into
one object: `{ ...profile?.toObject(), ...student.toObject() }`, so on a key
present in both the student's (identity's) value wins.  Documents are
modelled as association lists of string fields; `getField` gives the JS
property-lookup semantics of the spread (`jsSpread base over` puts `over`
first so its keys shadow `base`'s; key enumeration order is not modelled).
Fields never read by the handlers (passwords, timestamps, ...) are carried
the same way as the others, as generic entries. -/

/-- A Mongo document as seen through `toObject()`. -/
abbrev Obj := List (String × String)

/-- JS property lookup on a modelled document. -/
def getField (o : Obj) (k : String) : Option String :=
  (o.find? fun kv => kv.1 == k).map fun kv => kv.2

/-- The object spread `{ ...base, ...over }` up to property lookup. -/
def jsSpread (base over : Obj) : Obj := over ++ base

inductive StudentResp
  | notFound
  | found (composite : Obj)
deriving DecidableEq, Repr

/-- The profile lookup `StudentProfile.findOne({ email: student.email })`. -/
def findProfileFor (profiles : List Obj) (s : Obj) : Option Obj :=
  profiles.find? fun p => getField p "email" == getField s "email"

/-- `GET /api/students/:id`: students are keyed by their Mongo id; a missing
student is a 404 before any merge is attempted; otherwise the matching
profile (possibly absent) is spread under the student document. -/
def getStudentById (students : List (String × Obj)) (profiles : List Obj)
    (id : String) : StudentResp :=
  match students.find? (fun kv => kv.1 == id) with
  | none => .notFound
  | some kv =>
    let pr := findProfileFor profiles kv.2
    .found (jsSpread (pr.getD []) kv.2)

/-! ## Student listing (`GET /api/students`)

The `Student` schema carries `surname`, `firstname`, `middlename`, `phone`,
`email` (plus password/passport/date fields no filter reads, omitted); it has
no `matricNo`/`department`/`level` path, so in the handler's fallback chains
`s.matricNo || profile?.matricNo || "N/A"` the student side is always absent
and only the profile fallback remains.  Profile fields are strings, with `""`
standing for an absent (falsy) value. -/

structure Student where
  surname : String
  firstname : String
  middlename : String
  phone : String
  email : String
deriving DecidableEq, Repr

structure SProfile where
  email : String
  matricNo : String
  department : String
  level : String
deriving DecidableEq, Repr

/-- The merged per-student object the handler builds before filtering.  Only
the fields the search and filters read are kept. -/
structure MergedStudent where
  fullname : String
  matricNo : String
  department : String
  level : String
  email : String
  phone : String
deriving DecidableEq, Repr

/-- `[s.surname, s.firstname, s.middlename].filter(Boolean).join(" ")`. -/
def fullnameOf (s : Student) : String :=
  String.intercalate " " (([s.surname, s.firstname, s.middlename]).filter fun x => x != "")

/-- One step of the merge loop: find the profile by email and build the
merged object with its fallback chains. -/
def mergeForList (profiles : List SProfile) (s : Student) : MergedStudent :=
  let pr := profiles.find? fun p => p.email == s.email
  { fullname := fullnameOf s,
    matricNo := jsOrS (pr.map fun p => p.matricNo) "N/A",
    department := jsOrS (pr.map fun p => p.department) "N/A",
    level := jsOrS (pr.map fun p => p.level) "N/A",
    email := s.email,
    phone := s.phone }

/-- The free-text test: `regex.test(fullname) || regex.test(matricNo) ||
regex.test(email) || regex.test(phone)`. -/
def qMatches (pat : List RTok) (m : MergedStudent) : Bool :=
  regexTest pat m.fullname.data || regexTest pat m.matricNo.data ||
  regexTest pat m.email.data || regexTest pat m.phone.data

structure ListResp where
  data : List MergedStudent
  total : Nat
deriving DecidableEq, Repr

/-- The `filteredStudents` value of `GET /api/students`: merge every student
with its profile, then apply the free-text regex filter, then the department
filter, then the level filter — each only when its query parameter is
truthy. -/
def filteredStudents (students : List Student) (profiles : List SProfile)
    (q department level : String) : List MergedStudent :=
  let merged := students.map (mergeForList profiles)
  let f1 := if q == "" then merged else merged.filter (qMatches (parsePat (strTrim q)))
  let f2 := if department == "" then f1 else
    f1.filter fun m => trimLower m.department == trimLower department
  if level == "" then f2 else
    f2.filter fun m => trimLower m.level == trimLower level

/-- `GET /api/students`: the filtered list's length is the reported total and
`slice(skip, skip + perPage)` of it is the returned page.  `page` and `limit`
arrive already parsed (`parseInt`); the route defaults are `1` and `50`. -/
def listStudents (students : List Student) (profiles : List SProfile)
    (q department level : String) (page limit : Int) : ListResp :=
  let perPage : Nat := (max 1 limit).toNat
  let skip : Nat := (max 1 page - 1).toNat * perPage
  { data := ((filteredStudents students profiles q department level).drop skip).take perPage,
    total := (filteredStudents students profiles q department level).length }

/-- Modelled from the spec: a record matches the free-text query iff the
trimmed query is a case-insensitive substring of the full name, matric
number, email, or phone. -/
def specMatches (q : String) (m : MergedStudent) : Bool :=
  ciSubstring (strTrim q).data m.fullname.data || ciSubstring (strTrim q).data m.matricNo.data ||
  ciSubstring (strTrim q).data m.email.data || ciSubstring (strTrim q).data m.phone.data

/-- Modelled from the spec: the single filtering pass — substring search for
the free-text query, trim+lowercase exact equality for department and level,
each filter active only when its parameter is nonempty. -/
def specFilter (q department level : String) (ms : List MergedStudent) :
    List MergedStudent :=
  ms.filter fun m =>
    (q == "" || specMatches q m) &&
    (department == "" || trimLower m.department == trimLower department) &&
    (level == "" || trimLower m.level == trimLower level)

/-! ## Result ingestion (`POST /api/upload-results`)

The course catalog (`CourseCollection`) stores per-(level, department,
semester) documents with a nested `courses` array; fields the ingestion
never reads are omitted.  A bulk row is modelled after the cell extraction
(`row["Course Code"] || row["CourseCode"] || row["courseCode"]`, trimming,
`Number(...)` coercion of the score): header-variant resolution happens
upstream of the modelled logic and does not affect the claims. -/

structure CatCourse where
  code : String
  title : String
deriving DecidableEq, Repr

structure CourseDoc where
  courses : List CatCourse
deriving DecidableEq, Repr

/-- One spreadsheet row, post extraction: `courseCode` already trimmed,
`grade` `""` when the cell is absent, `score` the coerced number. -/
structure Row where
  fullname : String
  matricNo : String
  department : String
  level : String
  semester : String
  courseCode : String
  grade : String
  score : Int
deriving DecidableEq, Repr

/-- A persisted `Result` document (the `uploadedAt` timestamp is omitted). -/
structure FormattedResult where
  fullname : String
  matricNo : String
  department : String
  level : String
  semester : String
  courseCode : String
  courseTitle : String
  grade : String
  score : Int
deriving DecidableEq, Repr

/-- The fixed grading table both upload paths share: score≥70→A, ≥60→B,
≥50→C, ≥45→D, ≥40→E, else F. -/
def deriveGrade (score : Int) : String :=
  if 70 ≤ score then "A"
  else if 60 ≤ score then "B"
  else if 50 ≤ score then "C"
  else if 45 ≤ score then "D"
  else if 40 ≤ score then "E"
  else "F"

/-- Bulk path: `row["Grade"] || row["grade"] || ""` then auto-grade when the
result is falsy. -/
def rowGrade (r : Row) : String :=
  if r.grade == "" then deriveGrade r.score else r.grade

/-- `CourseCollection.findOne({ "courses.code": /^code$/i })`. -/
def catalogFindDoc (catalog : List CourseDoc) (code : String) : Option CourseDoc :=
  catalog.find? fun d => d.courses.any fun c => matchExact (parsePat code) c.code.data

/-- `courseDoc.courses.find(c => c.code.toLowerCase() === code.toLowerCase())`,
with the `""` fallback when nothing matches. -/
def matchedTitle (d : CourseDoc) (code : String) : String :=
  match d.courses.find? (fun c => ciEqStr c.code code) with
  | some c => c.title
  | none => ""

/-- The document pushed onto `formattedResults` for one bulk row. -/
def formatRow (d : CourseDoc) (r : Row) : FormattedResult :=
  { fullname := r.fullname, matricNo := r.matricNo,
    department := strTrim r.department, level := r.level, semester := r.semester,
    courseCode := r.courseCode, courseTitle := matchedTitle d r.courseCode,
    grade := rowGrade r, score := r.score }

inductive BulkResp
  | emptyFile
  | invalidCourse (code : String)
  | uploaded (count : Nat)
deriving DecidableEq, Repr

/-- The bulk loop: rows are formatted into an in-memory list; the first row
whose course code does not resolve aborts with a 400 naming that code, and
`Result.insertMany` runs only after every row has resolved. -/
def bulkGo (catalog : List CourseDoc) (store acc : List FormattedResult) :
    List Row → BulkResp × List FormattedResult
  | [] => (.uploaded acc.length, store ++ acc)
  | r :: rs =>
    match catalogFindDoc catalog r.courseCode with
    | none => (.invalidCourse r.courseCode, store)
    | some d => bulkGo catalog store (acc ++ [formatRow d r]) rs

/-- `POST /api/upload-results`, bulk case. -/
def bulkUpload (catalog : List CourseDoc) (rows : List Row)
    (store : List FormattedResult) : BulkResp × List FormattedResult :=
  if rows.isEmpty then (.emptyFile, store) else bulkGo catalog store [] rows

/-! ### Single-record upload -/

/-- The JSON body of the single-record case.  String fields use `""` for an
absent (falsy) value; `score` is an optional number, `none` when the field is
absent, so that the JS falsiness test `!score` is `none` or `some 0`. -/
structure SingleBody where
  fullname : String
  matricNo : String
  department : String
  level : String
  courseCode : String
  semester : String
  grade : String
  score : Option Int
deriving DecidableEq, Repr

inductive SingleResp
  | missingFields
  | invalidCourse (code : String)
  | uploaded
deriving DecidableEq, Repr

/-- JS falsiness of the `score` field: absent, or the number `0`. -/
def scoreFalsy : Option Int → Bool
  | none => true
  | some n => n == 0

/-- `!finalGrade || finalGrade.trim() === ""` drives the auto-grade. -/
def singleGrade (b : SingleBody) (n : Int) : String :=
  if b.grade == "" || strTrim b.grade == "" then deriveGrade n else b.grade

/-- `POST /api/upload-results`, single case: the required-fields test
rejects a falsy score; then the catalog lookup; then the save. -/
def singleUpload (catalog : List CourseDoc) (b : SingleBody)
    (store : List FormattedResult) : SingleResp × List FormattedResult :=
  if b.fullname == "" || b.matricNo == "" || b.courseCode == "" || scoreFalsy b.score then
    (.missingFields, store)
  else
    let n := b.score.getD 0
    match catalogFindDoc catalog b.courseCode with
    | none => (.invalidCourse b.courseCode, store)
    | some d =>
      (.uploaded, store ++
        [{ fullname := b.fullname, matricNo := b.matricNo,
           department := b.department, level := b.level, semester := b.semester,
           courseCode := b.courseCode, courseTitle := matchedTitle d b.courseCode,
           grade := singleGrade b n, score := n }])

/-! ## Helper lemmas -/

/-- Characterization of the `findOne({ pin, courseCode, used: false })`
lookup. -/
theorem findValidPin_isSome_iff (pins : List CoursePinRec) (pc cc : String) :
    (findValidPin pins pc cc).isSome = true ↔
      ∃ p ∈ pins, p.pin = pc ∧ p.courseCode = cc ∧ p.used = false := by
  simp [findValidPin, and_assoc]

/-- Flipping a successfully looked-up pin leaves a used pin with the same
code and course in the collection. -/
theorem usedPin_exists_markPinUsed (pins : List CoursePinRec) (pc cc : String)
    (h : (findValidPin pins pc cc).isSome = true) :
    ∃ p ∈ markPinUsed pins pc cc, p.pin = pc ∧ p.courseCode = cc ∧ p.used = true := by
  induction pins with
  | nil => simp [findValidPin] at h
  | cons p ps ih =>
    by_cases hp : (p.pin == pc && p.courseCode == cc && p.used == false) = true
    · obtain ⟨h1, h2, h3⟩ : p.pin = pc ∧ p.courseCode = cc ∧ p.used = false := by
        simpa [Bool.and_eq_true, and_assoc] using hp
      refine ⟨{ p with used := true }, ?_, h1, h2, rfl⟩
      simp only [markPinUsed]
      rw [if_pos hp]
      exact List.mem_cons_self _ _
    · have heq : findValidPin (p :: ps) pc cc = findValidPin ps pc cc := by
        unfold findValidPin
        exact List.find?_cons_of_neg _ hp
      obtain ⟨x, hx, hxx⟩ := ih (heq ▸ h)
      refine ⟨x, ?_, hxx⟩
      simp only [markPinUsed]
      rw [if_neg hp]
      exact List.mem_cons_of_mem _ hx

/-- When at most one record carries the given code, flipping it makes a
second lookup fail. -/
theorem findValidPin_markPinUsed_unique (pins : List CoursePinRec) (pc cc : String)
    (hu : (pins.filter fun p => p.pin == pc).length ≤ 1) :
    findValidPin (markPinUsed pins pc cc) pc cc = none := by
  induction pins with
  | nil => simp [markPinUsed, findValidPin]
  | cons p ps ih =>
    by_cases hp : (p.pin == pc && p.courseCode == cc && p.used == false) = true
    · obtain ⟨h1, h2, h3⟩ : p.pin = pc ∧ p.courseCode = cc ∧ p.used = false := by
        simpa [Bool.and_eq_true, and_assoc] using hp
      have hps : ∀ x ∈ ps, (x.pin == pc) = false := by
        intro x hx
        cases hb : (x.pin == pc) with
        | false => rfl
        | true =>
          exfalso
          have hmem : x ∈ ps.filter fun y => y.pin == pc := List.mem_filter.2 ⟨hx, hb⟩
          have hlen : 0 < (ps.filter fun y => y.pin == pc).length :=
            List.length_pos_of_mem hmem
          have hcons : ((p :: ps).filter fun y => y.pin == pc)
              = p :: ps.filter fun y => y.pin == pc :=
            List.filter_cons_of_pos (by simp [h1])
          rw [hcons, List.length_cons] at hu
          omega
      have hflip : findValidPin ({ p with used := true } :: ps) pc cc = none := by
        refine List.find?_eq_none.2 fun x hx => ?_
        rcases List.mem_cons.1 hx with hc | hc
        · subst hc; simp
        · simp [hps x hc]
      simp only [markPinUsed]
      rw [if_pos hp]
      exact hflip
    · have hu2 : (ps.filter fun x => x.pin == pc).length ≤ 1 := by
        cases hb : (p.pin == pc) with
        | false =>
          have hcons : ((p :: ps).filter fun y => y.pin == pc)
              = ps.filter fun y => y.pin == pc :=
            List.filter_cons_of_neg (by simp [hb])
          rw [hcons] at hu
          exact hu
        | true =>
          have hcons : ((p :: ps).filter fun y => y.pin == pc)
              = p :: ps.filter fun y => y.pin == pc :=
            List.filter_cons_of_pos (by simp [hb])
          rw [hcons, List.length_cons] at hu
          omega
      have tail := ih hu2
      have hstep : findValidPin (p :: markPinUsed ps pc cc) pc cc
          = findValidPin (markPinUsed ps pc cc) pc cc := by
        unfold findValidPin
        exact List.find?_cons_of_neg _ hp
      simp only [markPinUsed]
      rw [if_neg hp]
      exact hstep.trans tail

/-- Flipping the first record with a given code moves the `findOne`-by-code
lookup to the flipped record. -/
theorem find_markFirstWithPin (pins : List CoursePinRec) (pc : String) (r : CoursePinRec)
    (h : pins.find? (fun p => p.pin == pc) = some r) :
    (markFirstWithPin pins pc).find? (fun p => p.pin == pc) = some { r with used := true } := by
  induction pins with
  | nil => simp at h
  | cons p ps ih =>
    by_cases hp : (p.pin == pc) = true
    · have hh : List.find? (fun x => x.pin == pc) (p :: ps) = some p :=
        List.find?_cons_of_pos _ hp
      rw [hh] at h
      injection h with h
      subst h
      simp only [markFirstWithPin]
      rw [if_pos hp]
      exact List.find?_cons_of_pos _ (by simpa using hp)
    · have hh : List.find? (fun x => x.pin == pc) (p :: ps)
          = List.find? (fun x => x.pin == pc) ps :=
        List.find?_cons_of_neg _ hp
      rw [hh] at h
      have hh2 : List.find? (fun x => x.pin == pc) (p :: markFirstWithPin ps pc)
          = List.find? (fun x => x.pin == pc) (markFirstWithPin ps pc) :=
        List.find?_cons_of_neg _ hp
      simp only [markFirstWithPin]
      rw [if_neg hp]
      exact hh2.trans (ih h)

/-- A second call to `POST /api/course-pins/use` for a pin that was just
marked reports it as already used. -/
theorem usePin_twice (pins : List CoursePinRec) (pinCode : String)
    (h : (usePin pins pinCode).1 = .markedUsed) :
    (usePin (usePin pins pinCode).2 pinCode).1 = .alreadyUsed := by
  by_cases h0 : (pinCode == "") = true
  · simp [usePin, h0] at h
  · cases hf : pins.find? (fun p => p.pin == pinCode) with
    | none => simp [usePin, h0, hf] at h
    | some r =>
      by_cases hused : r.used = true
      · simp [usePin, h0, hf, hused] at h
      · have hsnd : (usePin pins pinCode).2 = markFirstWithPin pins pinCode := by
          simp [usePin, h0, hf, hused]
        have hf2 := find_markFirstWithPin pins pinCode r hf
        rw [hsnd]
        simp [usePin, h0, hf2]

/-! ## Claim theorems -/

/-- C1: `POST /api/course-register` checks its preconditions in order and
short-circuits on the first failure: a missing required field (matricNumber,
department, level, courseCode, pin) is rejected before any database read
(empty event trace); an existing registration for the same (matricNumber,
courseCode) pair is rejected as already-registered after only the
registration read, irrespective of the pin collection and of the save
outcomes; a failed pin lookup is rejected after the two reads.  In each of
the three failure cases the database state is returned unchanged and the
trace contains no write event. -/
theorem courseRegister_short_circuits (db : RegDB) (b : RegBody)
    (regSaveOk pinSaveOk : Bool) :
    (missingRegFields b = true →
      courseRegister db b regSaveOk pinSaveOk = (.missingFields, db, [])) ∧
    (missingRegFields b = false → ∀ r, findRegistration db b = some r →
      courseRegister db b regSaveOk pinSaveOk = (.alreadyRegistered, db, [.readReg])) ∧
    (missingRegFields b = false → findRegistration db b = none →
      findValidPin db.pins b.pin b.courseCode = none →
      courseRegister db b regSaveOk pinSaveOk = (.invalidPin, db, [.readReg, .readPin])) := by
  refine ⟨fun h => ?_, fun h r hr => ?_, fun h hr hp => ?_⟩
  · simp [courseRegister, h]
  · simp [courseRegister, h, hr]
  · simp [courseRegister, h, hr, hp]

/-- Witness for C1: the three rejection branches at concrete inputs.  The
already-registered case runs against an empty pin collection, so the
supplied pin is certainly invalid, and is still reported as
already-registered. -/
theorem courseRegister_short_circuits_witness :
    courseRegister ⟨[], []⟩ ⟨"", "J", "CS", "ND1", "COS101", "T", "PIN1"⟩ true true
      = (.missingFields, ⟨[], []⟩, []) ∧
    courseRegister ⟨[⟨"ND/CS/001", "J", "CS", "ND1", "COS101", "T", "OLD"⟩], []⟩
      ⟨"ND/CS/001", "J", "CS", "ND1", "COS101", "T", "PIN1"⟩ true true
      = (.alreadyRegistered,
         ⟨[⟨"ND/CS/001", "J", "CS", "ND1", "COS101", "T", "OLD"⟩], []⟩, [.readReg]) ∧
    courseRegister ⟨[], []⟩ ⟨"ND/CS/001", "J", "CS", "ND1", "COS101", "T", "PIN1"⟩ true true
      = (.invalidPin, ⟨[], []⟩, [.readReg, .readPin]) :=
  ⟨(courseRegister_short_circuits ⟨[], []⟩
      ⟨"", "J", "CS", "ND1", "COS101", "T", "PIN1"⟩ true true).1 (by decide),
   (courseRegister_short_circuits
      ⟨[⟨"ND/CS/001", "J", "CS", "ND1", "COS101", "T", "OLD"⟩], []⟩
      ⟨"ND/CS/001", "J", "CS", "ND1", "COS101", "T", "PIN1"⟩ true true).2.1 (by decide)
      ⟨"ND/CS/001", "J", "CS", "ND1", "COS101", "T", "OLD"⟩ (by decide),
   (courseRegister_short_circuits ⟨[], []⟩
      ⟨"ND/CS/001", "J", "CS", "ND1", "COS101", "T", "PIN1"⟩ true true).2.2
      (by decide) (by decide) (by decide)⟩

/-- C2: when all three preconditions of `POST /api/course-register` hold,
the handler attempts the two writes in order and the success response is
returned exactly when both writes succeed; on success the registration
record is stored and the pin flipped to used; when the first write fails
nothing is persisted; in every failing combination the response is the
server-error response, never success. -/
theorem courseRegister_two_writes (db : RegDB) (b : RegBody)
    (regSaveOk pinSaveOk : Bool)
    (hm : missingRegFields b = false)
    (hr : findRegistration db b = none)
    (hp : (findValidPin db.pins b.pin b.courseCode).isSome = true) :
    ((courseRegister db b regSaveOk pinSaveOk).1 = .registered ↔
      regSaveOk = true ∧ pinSaveOk = true) ∧
    ((courseRegister db b regSaveOk pinSaveOk).1 = .registered ∨
      (courseRegister db b regSaveOk pinSaveOk).1 = .serverError) ∧
    ((courseRegister db b regSaveOk pinSaveOk).1 = .registered →
      (courseRegister db b regSaveOk pinSaveOk).2.1.registrations
          = db.registrations ++ [mkRegistration b] ∧
      mkRegistration b ∈ (courseRegister db b regSaveOk pinSaveOk).2.1.registrations ∧
      (∃ p ∈ (courseRegister db b regSaveOk pinSaveOk).2.1.pins,
        p.pin = b.pin ∧ p.courseCode = b.courseCode ∧ p.used = true) ∧
      (courseRegister db b regSaveOk pinSaveOk).2.2
          = [.readReg, .readPin, .writeReg, .writePin]) ∧
    (regSaveOk = false → (courseRegister db b regSaveOk pinSaveOk).2.1 = db) := by
  cases hfp : findValidPin db.pins b.pin b.courseCode with
  | none => rw [hfp] at hp; simp at hp
  | some p0 =>
    have hused := usedPin_exists_markPinUsed db.pins b.pin b.courseCode hp
    cases regSaveOk with
    | false =>
      refine ⟨by simp [courseRegister, hm, hr, hfp], ?_, ?_, ?_⟩
      · right; simp [courseRegister, hm, hr, hfp]
      · intro h; exfalso; simp [courseRegister, hm, hr, hfp] at h
      · intro _; simp [courseRegister, hm, hr, hfp]
    | true =>
      cases pinSaveOk with
      | false =>
        refine ⟨by simp [courseRegister, hm, hr, hfp], ?_, ?_, ?_⟩
        · right; simp [courseRegister, hm, hr, hfp]
        · intro h; exfalso; simp [courseRegister, hm, hr, hfp] at h
        · intro h; exact absurd h (by simp)
      | true =>
        refine ⟨by simp [courseRegister, hm, hr, hfp], ?_, ?_, ?_⟩
        · left; simp [courseRegister, hm, hr, hfp]
        · intro _
          refine ⟨by simp [courseRegister, hm, hr, hfp], ?_, ?_, ?_⟩
          · simp [courseRegister, hm, hr, hfp]
          · simpa [courseRegister, hm, hr, hfp] using hused
          · simp [courseRegister, hm, hr, hfp]
        · intro h; exact absurd h (by simp)

/-- Witness for C2: both writes succeed on a concrete database, the new
registration record is stored and the pin is marked used. -/
theorem courseRegister_two_writes_witness :
    (courseRegister ⟨[], [⟨"COS101", "T", "PIN1", false⟩]⟩
        ⟨"ND/CS/001", "J", "CS", "ND1", "COS101", "Intro", "PIN1"⟩ true true).1
        = .registered ↔ (true = true ∧ true = true) :=
  (courseRegister_two_writes ⟨[], [⟨"COS101", "T", "PIN1", false⟩]⟩
    ⟨"ND/CS/001", "J", "CS", "ND1", "COS101", "Intro", "PIN1"⟩ true true
    (by decide) (by decide) (by decide)).1

/-- C3: redemption (the pin lookup-and-flip of `POST /api/course-register`)
succeeds exactly when some pin has the given code, is bound to the expected
course code, and is unused; a mismatch leaves the ledger unchanged and
reports the not-applicable outcome; a pin whose records are all bound to a
different course never redeems; under the uniqueness constraint on codes a
redeemed pin cannot be redeemed again; and a second
`POST /api/course-pins/use` call on a just-marked pin reports it as already
used. -/
theorem redeem_spec (pins : List CoursePinRec) (pc cc : String) :
    ((redeem pins pc cc).1 = .ok ↔
      ∃ p ∈ pins, p.pin = pc ∧ p.courseCode = cc ∧ p.used = false) ∧
    ((redeem pins pc cc).1 = .notApplicable → (redeem pins pc cc).2 = pins) ∧
    ((∀ p ∈ pins, p.pin = pc → p.courseCode ≠ cc) →
      (redeem pins pc cc).1 = .notApplicable) ∧
    ((redeem pins pc cc).1 = .ok →
      ∃ p ∈ (redeem pins pc cc).2, p.pin = pc ∧ p.courseCode = cc ∧ p.used = true) ∧
    ((pins.filter fun p => p.pin == pc).length ≤ 1 → (redeem pins pc cc).1 = .ok →
      (redeem (redeem pins pc cc).2 pc cc).1 = .notApplicable) ∧
    (∀ pinCode, (usePin pins pinCode).1 = .markedUsed →
      (usePin (usePin pins pinCode).2 pinCode).1 = .alreadyUsed) := by
  refine ⟨?_, ?_, ?_, ?_, ?_, fun pinCode h => usePin_twice pins pinCode h⟩
  · rw [← findValidPin_isSome_iff]
    cases hfp : findValidPin pins pc cc <;> simp [redeem, hfp]
  · cases hfp : findValidPin pins pc cc <;> simp [redeem, hfp]
  · intro hno
    cases hfp : findValidPin pins pc cc with
    | none => simp [redeem, hfp]
    | some p0 =>
      exfalso
      obtain ⟨x, hx, h1, h2, _⟩ :=
        (findValidPin_isSome_iff pins pc cc).1 (by simp [hfp])
      exact hno x hx h1 h2
  · intro hok
    cases hfp : findValidPin pins pc cc with
    | none => simp [redeem, hfp] at hok
    | some p0 =>
      have hsnd : (redeem pins pc cc).2 = markPinUsed pins pc cc := by
        simp [redeem, hfp]
      rw [hsnd]
      exact usedPin_exists_markPinUsed pins pc cc (by simp [hfp])
  · intro hu hok
    cases hfp : findValidPin pins pc cc with
    | none => simp [redeem, hfp] at hok
    | some p0 =>
      have hsnd : (redeem pins pc cc).2 = markPinUsed pins pc cc := by
        simp [redeem, hfp]
      rw [hsnd]
      have hnone := findValidPin_markPinUsed_unique pins pc cc hu
      simp [redeem, hnone]

/-- Witness for C3: a pin issued for `COS101` does not redeem against
`COS102`, and a pin marked used once reports already-used on the second
attempt. -/
theorem redeem_spec_witness :
    (redeem [⟨"COS101", "T", "PIN1", false⟩] "PIN1" "COS102").1 = .notApplicable ∧
    (usePin (usePin [⟨"COS101", "T", "PIN1", false⟩] "PIN1").2 "PIN1").1 = .alreadyUsed :=
  ⟨(redeem_spec [⟨"COS101", "T", "PIN1", false⟩] "PIN1" "COS102").2.2.1 (by decide),
   (redeem_spec [⟨"COS101", "T", "PIN1", false⟩] "PIN1" "COS102").2.2.2.2.2 "PIN1" (by decide)⟩

/-- Ordered insert helper: when no collision occurs the batch is appended
whole. -/
theorem insertPinsOrdered_ok (ps : List CoursePinRec) :
    ∀ store, (insertPinsOrdered store ps).1 = true →
      (insertPinsOrdered store ps).2 = store ++ ps := by
  induction ps with
  | nil => intro store _; simp [insertPinsOrdered]
  | cons p ps ih =>
    intro store h
    by_cases hc : (store.any fun q => q.pin == p.pin) = true
    · simp [insertPinsOrdered, hc] at h
    · have h2 : (insertPinsOrdered (store ++ [p]) ps).1 = true := by
        simpa [insertPinsOrdered, hc] using h
      have h3 := ih (store ++ [p]) h2
      simp [insertPinsOrdered, hc, h3]

/-- C4 counterexample: with the random source drawing the same value twice,
a batch of two generates colliding codes; `POST /api/course-pins/generate`
then answers with the server-error response, having persisted only the pin
before the collision — there is no retry with fresh randomness, and fewer
than `count` pins exist afterwards, refuting both the global-uniqueness and
the collision-retry-loop parts of the claim. -/
theorem generatePins_collision_counterexample :
    generatePins [] "COS101" "Intro" (some 2) (fun _ => 0)
      = (.serverError, [⟨"COS101", "Intro", "REG/COS101/1000", false⟩]) := by decide

/-- C4 (amended): for a positive requested amount the generation loop builds
exactly `count` pins, each for the given course with a code of the shape
`REG/<first word of the course code, uppercased>/<random 1000..9999>`; the
batch is inserted in order under the uniqueness constraint on `pin`: when no
generated code collides with an existing or earlier-generated code the
handler reports the generated codes and appends the whole batch, and when a
collision occurs the handler returns the server-error response — it never
retries. -/
theorem generatePins_spec (store : List CoursePinRec) (cc ct : String) (n : Int)
    (rand : Nat → Nat) (hcc : cc ≠ "") (hct : ct ≠ "") :
    (1 ≤ n → (batchPins cc ct (parseAmount (some n)).toNat rand).length = n.toNat) ∧
    (∀ p ∈ batchPins cc ct (parseAmount (some n)).toNat rand,
      p.courseCode = cc ∧ p.courseTitle = ct ∧ p.used = false ∧
      ∃ i, p.pin = "REG/" ++ pinPfx cc ++ "/" ++ toString (1000 + rand i % 9000)) ∧
    ((insertPinsOrdered store (batchPins cc ct (parseAmount (some n)).toNat rand)).1 = true →
      generatePins store cc ct (some n) rand
        = (.generated ((batchPins cc ct (parseAmount (some n)).toNat rand).map fun p => p.pin),
           store ++ batchPins cc ct (parseAmount (some n)).toNat rand)) ∧
    ((insertPinsOrdered store (batchPins cc ct (parseAmount (some n)).toNat rand)).1 = false →
      (generatePins store cc ct (some n) rand).1 = .serverError) := by
  have hcond : (cc == "" || ct == "") = false := by simp [hcc, hct]
  refine ⟨?_, ?_, ?_, ?_⟩
  · intro h1
    have hn0 : (n == 0) = false := by
      have : n ≠ 0 := by omega
      simpa using this
    simp [batchPins, parseAmount, hn0]
  · intro p hp
    simp only [batchPins, List.mem_map, List.mem_range] at hp
    obtain ⟨i, _, rfl⟩ := hp
    exact ⟨rfl, rfl, rfl, i, rfl⟩
  · intro hok
    have := insertPinsOrdered_ok (batchPins cc ct (parseAmount (some n)).toNat rand) store hok
    simp [generatePins, hcond, hok, this]
  · intro hfail
    simp [generatePins, hcond, hfail]

/-- Witness for C4 (amended): two distinct draws generate and persist the
whole batch. -/
theorem generatePins_spec_witness :
    generatePins [] "COS101" "Intro" (some 2) (fun i => i)
      = (.generated ["REG/COS101/1000", "REG/COS101/1001"],
         [⟨"COS101", "Intro", "REG/COS101/1000", false⟩,
          ⟨"COS101", "Intro", "REG/COS101/1001", false⟩]) := by
  have h := (generatePins_spec [] "COS101" "Intro" 2 (fun i => i)
    (by decide) (by decide)).2.2.1 (by decide)
  exact h.trans (by decide)

/-- Property lookup distributes over the object-spread concatenation. -/
theorem getField_append (o1 o2 : Obj) (k : String) :
    getField (o1 ++ o2) k = (getField o1 k).or (getField o2 k) := by
  unfold getField
  rw [List.find?_append]
  cases o1.find? fun kv => kv.1 == k <;> simp

/-- C5: in the composite served by `GET /api/students/:id`, any field the
student (identity) document carries keeps the identity's value — even when
the matched profile also carries it — and any field the identity does not
carry is resolved from the matched profile. -/
theorem merge_identity_wins (students : List (String × Obj)) (profiles : List Obj)
    (id : String) (kv : String × Obj)
    (hfind : students.find? (fun x => x.1 == id) = some kv) :
    getStudentById students profiles id
      = .found (jsSpread ((findProfileFor profiles kv.2).getD []) kv.2) ∧
    (∀ k v, getField kv.2 k = some v →
      getField (jsSpread ((findProfileFor profiles kv.2).getD []) kv.2) k = some v) ∧
    (∀ k, getField kv.2 k = none →
      getField (jsSpread ((findProfileFor profiles kv.2).getD []) kv.2) k
        = getField ((findProfileFor profiles kv.2).getD []) k) := by
  refine ⟨by simp [getStudentById, hfind], ?_, ?_⟩
  · intro k v hv
    rw [jsSpread, getField_append, hv]
    rfl
  · intro k hk
    rw [jsSpread, getField_append, hk]
    rfl

/-- Witness for C5: merging identity `{email: a@b.com, phone: 08011111111}`
with profile `{email: a@b.com, department: CS}` yields a composite carrying
the identity's phone and the profile's department. -/
theorem merge_identity_wins_witness :
    ∃ comp,
      getStudentById [("1", [("email", "a@b.com"), ("phone", "08011111111")])]
          [[("email", "a@b.com"), ("department", "CS")]] "1" = .found comp ∧
      getField comp "phone" = some "08011111111" ∧
      getField comp "department" = some "CS" := by
  obtain ⟨h1, h2, h3⟩ := merge_identity_wins
    [("1", [("email", "a@b.com"), ("phone", "08011111111")])]
    [[("email", "a@b.com"), ("department", "CS")]] "1"
    ("1", [("email", "a@b.com"), ("phone", "08011111111")]) (by decide)
  exact ⟨_, h1, h2 "phone" "08011111111" (by decide),
    (h3 "department" (by decide)).trans (by decide)⟩

/-- C6 counterexample: when no student (identity) record matches the
requested id, `GET /api/students/:id` answers not-found — even though a
profile-only record exists — contradicting "never an error or not-found
outcome". -/
theorem merge_missing_identity_counterexample :
    getStudentById [] [[("email", "a@b.com"), ("department", "CS")]] "1"
      = .notFound := by decide

/-- C6 (amended): the merge tolerates a missing profile — the composite then
carries exactly the identity's fields — but not a missing identity: when no
student record matches the id the endpoint returns the not-found outcome and
no merge is attempted. -/
theorem merge_missing_side (students : List (String × Obj)) (profiles : List Obj)
    (id : String) :
    (∀ kv, students.find? (fun x => x.1 == id) = some kv →
      findProfileFor profiles kv.2 = none →
      getStudentById students profiles id = .found (jsSpread [] kv.2) ∧
      ∀ k, getField (jsSpread [] kv.2) k = getField kv.2 k) ∧
    (students.find? (fun x => x.1 == id) = none →
      getStudentById students profiles id = .notFound) := by
  constructor
  · intro kv hkv hpr
    refine ⟨by simp [getStudentById, hkv, hpr], fun k => ?_⟩
    simp [jsSpread]
  · intro h
    simp [getStudentById, h]

/-- Witness for C6 (amended): a student with no profile is served as-is, and
a missing student id is answered not-found. -/
theorem merge_missing_side_witness :
    (getStudentById [("1", [("email", "a@b.com"), ("phone", "080")])] [] "1"
      = .found (jsSpread [] [("email", "a@b.com"), ("phone", "080")])) ∧
    getStudentById [] [] "zz" = .notFound :=
  ⟨((merge_missing_side [("1", [("email", "a@b.com"), ("phone", "080")])] [] "1").1
      ("1", [("email", "a@b.com"), ("phone", "080")]) (by decide) (by decide)).1,
   (merge_missing_side [] [] "zz").2 (by decide)⟩

/-- C8: when no grade is supplied, both the bulk path (`formatRow`) and the
single path (`singleGrade`) derive the grade from the numeric score by the
fixed threshold table — score≥70→A, ≥60→B, ≥50→C, ≥45→D, ≥40→E, else F — and
in particular 69 grades "B", 44 grades "E", 39 grades "F". -/
theorem deriveGrade_thresholds (s : Int) :
    (70 ≤ s → deriveGrade s = "A") ∧
    (60 ≤ s → s < 70 → deriveGrade s = "B") ∧
    (50 ≤ s → s < 60 → deriveGrade s = "C") ∧
    (45 ≤ s → s < 50 → deriveGrade s = "D") ∧
    (40 ≤ s → s < 45 → deriveGrade s = "E") ∧
    (s < 40 → deriveGrade s = "F") ∧
    (∀ d r, r.grade = "" → r.score = s → (formatRow d r).grade = deriveGrade s) ∧
    (∀ b, b.grade = "" → singleGrade b s = deriveGrade s) ∧
    deriveGrade 69 = "B" ∧ deriveGrade 44 = "E" ∧ deriveGrade 39 = "F" := by
  refine ⟨?_, ?_, ?_, ?_, ?_, ?_, ?_, ?_, by decide, by decide, by decide⟩
  · intro h
    rw [deriveGrade, if_pos h]
  · intro h1 h2
    rw [deriveGrade, if_neg (by omega), if_pos h1]
  · intro h1 h2
    rw [deriveGrade, if_neg (by omega), if_neg (by omega), if_pos h1]
  · intro h1 h2
    rw [deriveGrade, if_neg (by omega), if_neg (by omega), if_neg (by omega), if_pos h1]
  · intro h1 h2
    rw [deriveGrade, if_neg (by omega), if_neg (by omega), if_neg (by omega),
      if_neg (by omega), if_pos h1]
  · intro h
    rw [deriveGrade, if_neg (by omega), if_neg (by omega), if_neg (by omega),
      if_neg (by omega), if_neg (by omega)]
  · intro d r hg hs
    simp [formatRow, rowGrade, hg, hs]
  · intro b hb
    simp [singleGrade, hb]

/-- Witness for C8: the three concrete scores of the claim. -/
theorem deriveGrade_thresholds_witness :
    deriveGrade 69 = "B" ∧ deriveGrade 44 = "E" ∧ deriveGrade 39 = "F" :=
  ⟨(deriveGrade_thresholds 69).2.1 (by decide) (by decide),
   (deriveGrade_thresholds 44).2.2.2.2.1 (by decide) (by decide),
   (deriveGrade_thresholds 39).2.2.2.2.2.1 (by decide)⟩

/-- The bulk loop aborts at the first unresolvable row, leaving the result
store untouched, for any accumulator built from the earlier rows. -/
theorem bulkGo_aborts (catalog : List CourseDoc) (store : List FormattedResult)
    (rows : List Row) (r : Row) :
    ∀ acc, rows.find? (fun x => (catalogFindDoc catalog x.courseCode).isNone) = some r →
      bulkGo catalog store acc rows = (.invalidCourse r.courseCode, store) := by
  induction rows with
  | nil => intro acc h; simp at h
  | cons x rs ih =>
    intro acc h
    by_cases hx : ((catalogFindDoc catalog x.courseCode).isNone) = true
    · have hh : List.find? (fun y => (catalogFindDoc catalog y.courseCode).isNone) (x :: rs)
          = some x := List.find?_cons_of_pos _ hx
      rw [hh] at h
      injection h with h
      subst h
      cases hc : catalogFindDoc catalog x.courseCode with
      | some d => rw [hc] at hx; simp at hx
      | none => simp [bulkGo, hc]
    · have hh : List.find? (fun y => (catalogFindDoc catalog y.courseCode).isNone) (x :: rs)
          = List.find? (fun y => (catalogFindDoc catalog y.courseCode).isNone) rs :=
        List.find?_cons_of_neg _ hx
      rw [hh] at h
      cases hc : catalogFindDoc catalog x.courseCode with
      | none => rw [hc] at hx; simp at hx
      | some d =>
        simp only [bulkGo, hc]
        exact ih _ h

/-- C9: a batch upload containing a row whose course code does not resolve
against the catalog aborts as a whole: the response names the first
offending course code and the stored results are exactly what they were
before the request — no row of the batch, including those before the
failing one, is persisted. -/
theorem bulkUpload_aborts (catalog : List CourseDoc) (rows : List Row)
    (store : List FormattedResult) (r : Row)
    (h : rows.find? (fun x => (catalogFindDoc catalog x.courseCode).isNone) = some r) :
    bulkUpload catalog rows store = (.invalidCourse r.courseCode, store) := by
  cases rows with
  | nil => simp at h
  | cons x rs =>
    have hne : (x :: rs).isEmpty = false := rfl
    rw [bulkUpload, hne]
    simp only [Bool.false_eq_true, if_false]
    exact bulkGo_aborts catalog store (x :: rs) r [] h

/-- Witness for C9: a two-row batch whose second row carries an unknown
course code is rejected whole; the first (valid) row is not persisted
either. -/
theorem bulkUpload_aborts_witness :
    bulkUpload [⟨[⟨"COS101", "Intro"⟩]⟩]
      [⟨"J", "M1", "CS", "ND1", "1", "COS101", "", 69⟩,
       ⟨"K", "M2", "CS", "ND1", "1", "COS999", "", 50⟩] []
      = (.invalidCourse "COS999", []) :=
  bulkUpload_aborts [⟨[⟨"COS101", "Intro"⟩]⟩]
    [⟨"J", "M1", "CS", "ND1", "1", "COS101", "", 69⟩,
     ⟨"K", "M2", "CS", "ND1", "1", "COS999", "", 50⟩] []
    ⟨"K", "M2", "CS", "ND1", "1", "COS999", "", 50⟩ (by decide)

/-- C10 (implicit): the required-fields test of the single-record upload
treats the falsy score `0` as missing, so a body whose score is `0` is
always rejected with the missing-fields validation error, while any nonzero
score passes that test (the other required fields being present). -/
theorem singleUpload_zero_score (catalog : List CourseDoc) (b : SingleBody)
    (store : List FormattedResult) :
    (b.score = some 0 → singleUpload catalog b store = (.missingFields, store)) ∧
    (∀ n : Int, b.score = some n → n ≠ 0 → b.fullname ≠ "" → b.matricNo ≠ "" →
      b.courseCode ≠ "" → (singleUpload catalog b store).1 ≠ .missingFields) := by
  constructor
  · intro h
    have hsf : scoreFalsy b.score = true := by rw [h]; simp [scoreFalsy]
    simp [singleUpload, hsf]
  · intro n hn h0 h1 h2 h3
    have hsf : scoreFalsy b.score = false := by rw [hn]; simp [scoreFalsy, h0]
    have hcond : (b.fullname == "" || b.matricNo == "" || b.courseCode == ""
        || scoreFalsy b.score) = false := by
      simp [h1, h2, h3, hsf]
    cases hc : catalogFindDoc catalog b.courseCode with
    | none => simp [singleUpload, hcond, hc]
    | some d => simp [singleUpload, hcond, hc]

/-- Witness for C10: a zero score (with every other field present and a
resolvable course code) is rejected as missing fields; the same body with
score 69 is not. -/
theorem singleUpload_zero_score_witness :
    singleUpload [⟨[⟨"COS101", "Intro"⟩]⟩]
      ⟨"J", "M1", "CS", "ND1", "COS101", "1", "", some 0⟩ []
      = (.missingFields, []) ∧
    (singleUpload [⟨[⟨"COS101", "Intro"⟩]⟩]
      ⟨"J", "M1", "CS", "ND1", "COS101", "1", "", some 69⟩ []).1 ≠ .missingFields :=
  ⟨(singleUpload_zero_score [⟨[⟨"COS101", "Intro"⟩]⟩]
      ⟨"J", "M1", "CS", "ND1", "COS101", "1", "", some 0⟩ []).1 (by decide),
   (singleUpload_zero_score [⟨[⟨"COS101", "Intro"⟩]⟩]
      ⟨"J", "M1", "CS", "ND1", "COS101", "1", "", some 69⟩ []).2 69
      (by decide) (by decide) (by decide) (by decide) (by decide)⟩

/-- On a dot-free pattern, the anchored prefix match of the modelled regex is
the case-insensitive "starts with" of the spec. -/
theorem matchHere_parsePatL_no_dot (q : List Char) (hq : ∀ c ∈ q, c ≠ '.') :
    ∀ s, matchHere (parsePatL q) s = ciStarts q s := by
  induction q with
  | nil => intro s; simp [parsePatL, matchHere, ciStarts]
  | cons c cs ih =>
    intro s
    have hc : c ≠ '.' := hq c (by simp)
    have ih2 := ih fun x hx => hq x (by simp [hx])
    cases s with
    | nil => simp [parsePatL, matchHere, ciStarts, hc]
    | cons d ds =>
      simp only [parsePatL, List.map_cons, if_neg hc, matchHere, ciStarts, tokMatch]
      exact congrArg (fun x => c.toLower == d.toLower && x) (ih2 ds)

/-- On a dot-free pattern, `regex.test` is exactly the case-insensitive
substring search. -/
theorem regexTest_eq_ciSubstring (q : List Char) (hq : ∀ c ∈ q, c ≠ '.')
    (s : List Char) : regexTest (parsePatL q) s = ciSubstring q s := by
  induction s with
  | nil => simp [regexTest, ciSubstring, matchHere_parsePatL_no_dot q hq]
  | cons d ds ih => simp [regexTest, ciSubstring, matchHere_parsePatL_no_dot q hq, ih]

/-- The four-field free-text test coincides with the spec's substring test
when the trimmed query carries no regex metacharacter. -/
theorem qMatches_eq_specMatches (q : String)
    (hq : ∀ c ∈ (strTrim q).data, regexSpecial c = false) (m : MergedStudent) :
    qMatches (parsePat (strTrim q)) m = specMatches q m := by
  have hnd : ∀ c ∈ (strTrim q).data, c ≠ '.' := by
    intro c hc he
    have h2 := hq c hc
    rw [he] at h2
    simp [regexSpecial] at h2
  simp [qMatches, specMatches, parsePat, regexTest_eq_ciSubstring _ hnd]

/-- A conditionally skipped filter is the filter guarded by the skip
condition. -/
theorem skipFilter {α : Type} (b : Bool) (p : α → Bool) (l : List α) :
    (if b then l else l.filter p) = l.filter fun x => b || p x := by
  cases b <;> simp

/-- Reassociation of the three chained filter predicates. -/
theorem boolAndShuffle (a b c : Bool) : ((c && b) && a) = ((a && b) && c) := by
  cases a <;> cases b <;> cases c <;> rfl

/-- The chained conditional filters of the handler equal the single
spec-worded filtering pass. -/
theorem filteredStudents_eq_specFilter (students : List Student)
    (profiles : List SProfile) (q department level : String)
    (hq : ∀ c ∈ (strTrim q).data, regexSpecial c = false) :
    filteredStudents students profiles q department level
      = specFilter q department level (students.map (mergeForList profiles)) := by
  unfold filteredStudents specFilter
  simp only []
  rw [skipFilter (q == ""), skipFilter (department == ""), skipFilter (level == "")]
  rw [List.filter_filter, List.filter_filter]
  refine List.filter_congr fun m _ => ?_
  rw [qMatches_eq_specMatches q hq m]
  exact boolAndShuffle _ _ _

/-- C7 counterexample: the free-text query is interpreted as a regular
expression, not as a literal substring.  The query `a.c` matches the student
whose full name is `abc` — the handler reports total 1 — although `a.c` is
not a case-insensitive substring of any of the four searched fields, so the
spec-worded substring filter keeps nothing. -/
theorem listStudents_regex_counterexample :
    (listStudents [⟨"abc", "", "", "080", "x@y.z"⟩] [] "a.c" "" "" 1 50).total = 1 ∧
    (specFilter "a.c" "" ""
      ([⟨"abc", "", "", "080", "x@y.z"⟩].map (mergeForList []))).length = 0 := by decide

/-- C7 (amended): when the trimmed free-text query contains no regex
metacharacter, a student-listing request filters exactly as the spec words
it — the query as a case-insensitive substring of full name, matric number,
email, or phone, the department and level filters as trim+lowercase exact
equality — and pagination is applied to the filtered list after all
filtering: the reported total is the filtered list's length and the returned
page is the skip/limit slice of the filtered list.  (For queries containing
metacharacters the free-text filter is the case-insensitive regex match
instead.) -/
theorem listStudents_search_spec (students : List Student) (profiles : List SProfile)
    (q department level : String) (page limit : Int)
    (hq : ∀ c ∈ (strTrim q).data, regexSpecial c = false) :
    (listStudents students profiles q department level page limit).total
      = (specFilter q department level (students.map (mergeForList profiles))).length ∧
    (listStudents students profiles q department level page limit).data
      = ((specFilter q department level (students.map (mergeForList profiles))).drop
          ((max 1 page - 1).toNat * (max 1 limit).toNat)).take (max 1 limit).toNat := by
  have hkey := filteredStudents_eq_specFilter students profiles q department level hq
  unfold listStudents
  rw [hkey]
  exact ⟨rfl, rfl⟩

/-- Witness for C7 (amended): a metacharacter-free query on a one-student
database, matched case-insensitively against the full name. -/
theorem listStudents_search_spec_witness :
    (listStudents [⟨"abc", "", "", "080", "x@y.z"⟩] [] "AB" "" "" 1 50).total
      = (specFilter "AB" "" ""
          ([⟨"abc", "", "", "080", "x@y.z"⟩].map (mergeForList []))).length ∧
    (listStudents [⟨"abc", "", "", "080", "x@y.z"⟩] [] "AB" "" "" 1 50).data
      = ((specFilter "AB" "" ""
          ([⟨"abc", "", "", "080", "x@y.z"⟩].map (mergeForList []))).drop
          ((max 1 (1 : Int) - 1).toNat * (max 1 (50 : Int)).toNat)).take
          (max 1 (50 : Int)).toNat :=
  listStudents_search_spec [⟨"abc", "", "", "080", "x@y.z"⟩] [] "AB" "" "" 1 50
    (by decide)

end ICTReg